import Mathlib

/-!
Shallow embedding of the node-entity-baker core in Lean 4, translated from the
TypeScript sources: the string helpers of the helpers module, the identifier
validation, method-name derivation and entity loop of the compiler module, the
type-mapping closures of the Doctrine and Entity Framework emitters, the CLR
type mapper, and the file-writing behaviour of the emitters.

Modelling conventions, used consistently below:
- JavaScript strings are Lean String values; character-level operations work on
  the underlying character list so that every definition is structural and
  evaluates inside the kernel.
- Optional object fields of type T become Option T; a missing field is none.
- Functions that throw become Except CompileError valued; each throw site of
  the embedded code has its own CompileError constructor carrying the payload
  of the thrown message.
- The filesystem is a finite map from path strings to file contents; directory
  creation has no observable effect in this map and is dropped. Path.join is
  modelled as joining with a slash and Path.resolve as the identity, which is
  faithful for the path-equality facts proved here.
-/

namespace EntityBaker

/-- Whitespace class of the JavaScript trim operations in the source: space,
tab, line feed, carriage return, vertical tab and form feed. -/
def isJsSpace (c : Char) : Bool :=
  c == ' ' || c == '\t' || c == '\n' || c == '\r' || c == '\x0b' || c == '\x0c'

/-- Removes leading and trailing whitespace from a character list. -/
def trimList (cs : List Char) : List Char :=
  ((cs.dropWhile isJsSpace).reverse.dropWhile isJsSpace).reverse

/-- JavaScript String.prototype.trim. -/
def jsTrim (s : String) : String := ⟨trimList s.data⟩

/-- JavaScript String.prototype.toLowerCase, restricted to the per-character
lowering that the embedded inputs exercise. -/
def jsToLower (s : String) : String := ⟨s.data.map Char.toLower⟩

/-- helpers normalizeString: toStringSafe, then toLowerCase, then trim. -/
def normalizeString (s : String) : String := jsTrim (jsToLower s)

/-- JavaScript String.prototype.split with a single-character separator. -/
def splitOnChar (sep : Char) : List Char → List (List Char)
  | [] => [[]]
  | c :: cs =>
    match splitOnChar sep cs with
    | [] => [[]]
    | w :: ws => if c == sep then [] :: w :: ws else (c :: w) :: ws

/-- JavaScript Array.prototype.join on character lists. -/
def joinWith (sep : List Char) : List (List Char) → List Char
  | [] => []
  | [w] => w
  | w :: ws => w ++ sep ++ joinWith sep ws

/-- helpers replaceAll: val.split(searchFor).join(replaceWith). Every call site
of the embedded code passes a single-character search string, so the search
argument is a character here. -/
def replaceAll (val : String) (searchFor : Char) (replaceWith : String) : String :=
  ⟨joinWith replaceWith.data (splitOnChar searchFor val.data)⟩

/-- helpers toBooleanSafe, restricted to the optional boolean fields it is
applied to in the embedded code: a present boolean is returned as is, a
missing value falls through to the default. -/
def toBooleanSafe (val : Option Bool) (defaultValue : Bool) : Bool :=
  match val with
  | some b => b
  | none => defaultValue

/-- Character class of the source regex in parseForClass. The source writes
the class as lower letters, pipe, upper letters, pipe, digits, pipe and
underscore, so the literal pipe character itself is part of the class. -/
def isClassNameChar (c : Char) : Bool :=
  c.isAlpha || c.isDigit || c == '_' || c == '|'

/-- Test of the second source regex in parseForClass: does the string start
with a decimal digit. -/
def startsWithDigit (s : String) : Bool :=
  match s.data with
  | [] => false
  | c :: _ => c.isDigit

/-- compiler parseForClass: converts to string, trims, then accepts the value
exactly when it is a nonempty run of class characters that does not start
with a digit. Returns none where the source returns false. -/
def parseForClass (val : String) : Option String :=
  let v := jsTrim val
  if !v.data.isEmpty && v.data.all isClassNameChar && !startsWithDigit v then
    some v
  else
    none

/-- One word step of the METHODS loop in EntityCompiler.compileEntities:
first character upper-cased, rest of the word trimmed again. -/
def upperFirstWord (w : String) : String :=
  match w.data with
  | [] => ""
  | c :: rest => ⟨c.toUpper :: trimList rest⟩

/-- Method-name suffix derived for a column key, embedded from the METHODS
loop of EntityCompiler.compileEntities. The three replaceAll bindings mirror
the three consecutive source statements, each of which reads the original
key again instead of the previous result, so only the tab replacement
reaches the split below. -/
def methodNameSuffix (C : String) : String :=
  let _wordsOfColumn := replaceAll C '_' " "
  let _wordsOfColumn := replaceAll C '-' " "
  let wordsOfColumn := replaceAll C '\t' "    "
  let words :=
    (((splitOnChar ' ' wordsOfColumn.data).map (fun w => jsTrim ⟨w⟩)).filter
      (fun w => w != "")).map upperFirstWord
  words.foldr (fun x acc => x ++ acc) ""

-- Data type tag constants of the compiler module.
def TYPE__DEFAULT : String := ""
def TYPE_BIGINT : String := "bigint"
def TYPE_FLOAT : String := "float"
def TYPE_DECIMAL : String := "decimal"
def TYPE_INT : String := "int"
def TYPE_INT16 : String := "int16"
def TYPE_INT32 : String := "int32"
def TYPE_INTEGER : String := "integer"
def TYPE_INT64 : String := "int64"
def TYPE_JSON : String := "json"
def TYPE_SMALLINT : String := "smallint"
def TYPE_STR : String := "str"
def TYPE_STRING : String := "string"

/-- Structured error values, one constructor per throw site of the embedded
code, carrying the data interpolated into the thrown message. -/
inductive CompileError where
  | invalidClassName (name : String)
  | invalidColumnName (name : String)
  | duplicateColumn (name : String)
  | unsupportedDoctrineType (typeName : String)
  | unsupportedEfType (typeName : String)
  | unsupportedClrType (typeName : String)
  | unsupportedTarget (target : Nat)
deriving DecidableEq

/-- First switch statement of the TO_DOCTRINE_TYPE closure in
generateClassForDoctrine, on the already-normalized type tag. -/
def doctrineTypeSwitch (type : String) (isId : Bool) : Except CompileError String :=
  if type == TYPE_BIGINT || type == TYPE_INT64 then .ok "bigint"
  else if type == TYPE_DECIMAL then .ok "decimal"
  else if type == TYPE_FLOAT then .ok "float"
  else if type == TYPE_INT || type == TYPE_INT32 || type == TYPE_INTEGER then .ok "integer"
  else if type == TYPE_INT16 || type == TYPE_SMALLINT then .ok "smallint"
  else if type == TYPE_JSON then .ok "string"
  else if type == TYPE_STR || type == TYPE_STRING then .ok "string"
  else if type == TYPE__DEFAULT then .ok (if isId then "integer" else "string")
  else .error (.unsupportedDoctrineType type)

/-- TO_DOCTRINE_TYPE closure of generateClassForDoctrine: normalizes the type
field of the column (an absent field normalizes to the empty tag) and runs
the switch; the Doctrine mapping adds no nullable marker. -/
def TO_DOCTRINE_TYPE (colType : Option String) (isId : Bool) : Except CompileError String :=
  doctrineTypeSwitch (normalizeString (colType.getD "")) isId

/-- First switch statement of the TO_EF_TYPE closure in
generateClassForEntityFramework. -/
def efTypeSwitch (type : String) (isId : Bool) : Except CompileError String :=
  if type == TYPE_STR || type == TYPE_STRING then .ok "string"
  else if type == TYPE_INT || type == TYPE_INT32 || type == TYPE_INTEGER then .ok "int"
  else if type == TYPE_JSON then .ok "dynamic"
  else if type == TYPE_BIGINT || type == TYPE_INT64 then .ok "long"
  else if type == TYPE__DEFAULT then .ok (if isId then "int" else "string")
  else .error (.unsupportedEfType type)

/-- Second switch of the TO_EF_TYPE closure: a question mark is appended to
the numeric native types when the column can be null. -/
def efNullableMark (type : String) (canBeNull : Bool) : String :=
  if canBeNull && (type == "int" || type == "long") then type ++ "?" else type

/-- TO_EF_TYPE closure of generateClassForEntityFramework. -/
def TO_EF_TYPE (colType : Option String) (isId canBeNull : Bool) : Except CompileError String :=
  (efTypeSwitch (normalizeString (colType.getD "")) isId).map
    (fun t => efNullableMark t canBeNull)

/-- First switch statement of toClrType in the compiler module. -/
def clrTypeSwitch (type : String) (isId : Bool) : Except CompileError String :=
  if type == TYPE_BIGINT || type == TYPE_INT64 then .ok "long"
  else if type == TYPE_DECIMAL then .ok "decimal"
  else if type == TYPE_FLOAT then .ok "float"
  else if type == TYPE_INT || type == TYPE_INT32 || type == TYPE_INTEGER then .ok "int"
  else if type == TYPE_INT16 || type == TYPE_SMALLINT then .ok "short"
  else if type == TYPE_JSON then .ok "dynamic"
  else if type == TYPE_STR || type == TYPE_STRING then .ok "string"
  else if type == TYPE__DEFAULT then .ok (if isId then "int" else "string")
  else .error (.unsupportedClrType type)

/-- Second switch of toClrType: the numeric and decimal native types get a
question mark appended when the value can be null. -/
def clrNullableMark (type : String) (canBeNull : Bool) : String :=
  if canBeNull &&
      (type == "decimal" || type == "float" || type == "int" || type == "long" || type == "short")
  then type ++ "?" else type

/-- compiler toClrType, with the two callback arguments flattened to the
booleans they produce. -/
def toClrType (type : String) (canBeNull : Bool) (isId : Bool) : Except CompileError String :=
  (clrTypeSwitch (normalizeString type) isId).map (fun t => clrNullableMark t canBeNull)

/-- Type tags handled by the switch of the Doctrine mapper. -/
def doctrineRecognizedTypes : List String :=
  [TYPE_BIGINT, TYPE_INT64, TYPE_DECIMAL, TYPE_FLOAT, TYPE_INT, TYPE_INT32, TYPE_INTEGER,
   TYPE_INT16, TYPE_SMALLINT, TYPE_JSON, TYPE_STR, TYPE_STRING, TYPE__DEFAULT]

/-- Type tags handled by the switch of the Entity Framework mapper. -/
def efRecognizedTypes : List String :=
  [TYPE_STR, TYPE_STRING, TYPE_INT, TYPE_INT32, TYPE_INTEGER, TYPE_JSON, TYPE_BIGINT,
   TYPE_INT64, TYPE__DEFAULT]

/-- Type tags handled by the switch of the CLR mapper. -/
def clrRecognizedTypes : List String :=
  [TYPE_BIGINT, TYPE_INT64, TYPE_DECIMAL, TYPE_FLOAT, TYPE_INT, TYPE_INT32, TYPE_INTEGER,
   TYPE_INT16, TYPE_SMALLINT, TYPE_JSON, TYPE_STR, TYPE_STRING, TYPE__DEFAULT]

/-- Boolean lexicographic comparison of character lists by code point. This is
the comparison JavaScript applies to strings with its relational operators,
which compareValuesBy uses on the selected values. -/
def lexLe : List Char → List Char → Bool
  | [], _ => true
  | _ :: _, [] => false
  | a :: as, b :: bs =>
    if a.toNat < b.toNat then true
    else if b.toNat < a.toNat then false
    else lexLe as bs

/-- One insertion step of the stable sort used to model the comparator-based
sorts of the source: the new element is placed before the first entry it
compares at most equal to, so entries that compare equal keep their
original relative order, as in the stable sorts of the runtime. -/
def orderedInsert (le : α → α → Bool) (a : α) : List α → List α
  | [] => [a]
  | b :: l => if le a b then a :: b :: l else b :: orderedInsert le a l

/-- Stable sort by a boolean comparison; models both the Array sort on the
column names and the Enumerable orderBy-thenBy chains of the source, all of
which are stable sorts by a total preorder. -/
def insertionSortBy (le : α → α → Bool) : List α → List α
  | [] => []
  | a :: l => orderedInsert le a (insertionSortBy le l)

/-- Column descriptor of the compiler module; every field is optional in the
source interface. -/
structure EntityColumn where
  auto : Option Bool
  id : Option Bool
  null : Option Bool
  type : Option String
deriving DecidableEq

def emptyColumn : EntityColumn := ⟨none, none, none, none⟩

/-- The CTX object handed to a generator in compileEntities: the source
fields entity and options are flattened to the pieces the generators read
from them, namely the table name and the configured Doctrine XML output
directory. -/
structure GenerateClassContext where
  columnNames : List String
  columns : List (String × EntityColumn)
  methods : List (String × String)
  name : String
  namespacePath : List String
  table : Option String
  outDir : String
  doctrineXmlOutDir : Option String
deriving DecidableEq

/-- Reading context.columns at a column name. -/
def columnOf (ctx : GenerateClassContext) (col : String) : EntityColumn :=
  (ctx.columns.lookup col).getD emptyColumn

/-- Reading context.methods at a column name. -/
def methodOf (ctx : GenerateClassContext) (col : String) : String :=
  (ctx.methods.lookup col).getD ""

/-- IS_AUTO closure of the emitters. -/
def IS_AUTO (ctx : GenerateClassContext) (col : String) : Bool :=
  toBooleanSafe (columnOf ctx col).auto false

/-- IS_ID closure of the emitters. -/
def IS_ID (ctx : GenerateClassContext) (col : String) : Bool :=
  toBooleanSafe (columnOf ctx col).id false

/-- CAN_BE_NULL closure of the Entity Framework emitter. -/
def CAN_BE_NULL (ctx : GenerateClassContext) (col : String) : Bool :=
  toBooleanSafe (columnOf ctx col).null false

/-- Comparator of the columnNames sort in compileEntities: compareValuesBy
with normalizeString as the selector. -/
def compareKeyLe (x y : String) : Bool :=
  lexLe (normalizeString x).data (normalizeString y).data

/-- Primary sort key of the COLUMNS_FOR_XML ordering in
generateClassForDoctrine: id columns rank zero, all other columns rank one. -/
def xmlIdRank (ctx : GenerateClassContext) (cn : String) : Nat :=
  if IS_ID ctx cn then 0 else 1

/-- Composite comparison realized by the orderBy-thenBy chain that produces
COLUMNS_FOR_XML: by id rank, then by normalized column name. -/
def xmlOrderLe (ctx : GenerateClassContext) (x y : String) : Bool :=
  if xmlIdRank ctx x < xmlIdRank ctx y then true
  else if xmlIdRank ctx x = xmlIdRank ctx y then compareKeyLe x y
  else false

/-- COLUMNS_FOR_XML of generateClassForDoctrine: the context column names
reordered by the stable orderBy-thenBy chain. -/
def COLUMNS_FOR_XML (ctx : GenerateClassContext) : List String :=
  insertionSortBy (xmlOrderLe ctx) ctx.columnNames

/-- The getter and setter name maps accumulated by the per-column loop of
generateClassForDoctrine: hasGetter is the constant true, hasSetter is the
negation of IS_AUTO, and the recorded names prepend get and set to the
method suffix of the column. -/
def doctrineAccessors (ctx : GenerateClassContext) :
    List String → List (String × String) × List (String × String)
  | [] => ([], [])
  | C :: rest =>
    let METHOD_SUFFIX := methodOf ctx C
    let hasGetter := true
    let hasSetter := !IS_AUTO ctx C
    let next := doctrineAccessors ctx rest
    ((if hasGetter then [(C, "get" ++ METHOD_SUFFIX)] else []) ++ next.1,
     (if hasSetter then [(C, "set" ++ METHOD_SUFFIX)] else []) ++ next.2)

/-- The GETTERS and SETTERS maps accumulated by the per-column loop of
generateClassForEntityFramework: the property name serves as both, the
column is skipped entirely when it would get neither accessor. -/
def efAccessors (ctx : GenerateClassContext) :
    List String → List (String × String) × List (String × String)
  | [] => ([], [])
  | C :: rest =>
    let PROPERTY_NAME := methodOf ctx C
    let hasGetter := true
    let hasSetter := !IS_AUTO ctx C
    if !hasGetter && !hasSetter then efAccessors ctx rest
    else
      let next := efAccessors ctx rest
      ((if hasGetter then [(C, PROPERTY_NAME)] else []) ++ next.1,
       (if hasSetter then [(C, PROPERTY_NAME)] else []) ++ next.2)

/-- A raw column entry of the schema: either a bare type-name string or a
full descriptor object. -/
inductive EntityColumnDescriptionEntry where
  | shorthand (value : String)
  | full (column : EntityColumn)
deriving DecidableEq

/-- A raw entity description; the columns field may be absent or not an
object, modelled as none. The list keeps the enumeration order of the
source object keys. -/
structure EntityClass where
  columns : Option (List (String × EntityColumnDescriptionEntry))
  table : Option String
deriving DecidableEq

/-- Canonical column value stored by the normalization loop: a non-object
entry is expanded to a descriptor whose type is the normalized string. -/
def toColumnEntry (entry : EntityColumnDescriptionEntry) : EntityColumn :=
  match entry with
  | .full c => c
  | .shorthand s => ⟨none, none, none, some (normalizeString s)⟩

/-- The per-column loop of the try block in compileEntities: validates each
raw column key, rejects a key already present in the accumulated storage,
and appends the expanded descriptor under the parsed name. -/
def addColumns (COLUMNS : List (String × EntityColumn)) :
    List (String × EntityColumnDescriptionEntry) →
    Except CompileError (List (String × EntityColumn))
  | [] => .ok COLUMNS
  | (C, entry) :: rest =>
    match parseForClass C with
    | none => .error (.invalidColumnName C)
    | some COLUMN_NAME =>
      if (COLUMNS.lookup COLUMN_NAME).isSome then .error (.duplicateColumn COLUMN_NAME)
      else addColumns (COLUMNS ++ [(COLUMN_NAME, toColumnEntry entry)]) rest

/-- Result of the validation part of the per-entity try block. -/
structure NormalizedEntity where
  className : String
  columns : List (String × EntityColumn)
  table : Option String
deriving DecidableEq

/-- Validation part of the per-entity try block of compileEntities: parse the
entity key, skip a non-object entity value (ok none, matching the continue
statement under which the finally block still fires the callback), then run
the column loop. -/
def normalizeEntity (E : String) (entity : Option EntityClass) :
    Except CompileError (Option NormalizedEntity) :=
  match parseForClass E with
  | none => .error (.invalidClassName E)
  | some CLASS_NAME =>
    match entity with
    | none => .ok none
    | some ENTITY_CLASS =>
      match ENTITY_CLASS.columns with
      | none => .ok (some ⟨CLASS_NAME, [], ENTITY_CLASS.table⟩)
      | some colDescs =>
        match addColumns [] colDescs with
        | .error e => .error e
        | .ok COLUMNS => .ok (some ⟨CLASS_NAME, COLUMNS, ENTITY_CLASS.table⟩)

/-- The METHODS map of compileEntities: every stored column name paired with
its derived method-name suffix, in storage order. -/
def METHODS_of (COLUMNS : List (String × EntityColumn)) : List (String × String) :=
  COLUMNS.map (fun p => (p.1, methodNameSuffix p.1))

/-- The CTX construction of compileEntities: column names sorted by the
normalized-name comparator, column storage, method names, class name,
namespace and output directory. -/
def buildContext (ns : List String) (outDir : String) (xmlOut : Option String)
    (ne : NormalizedEntity) : GenerateClassContext :=
  { columnNames := insertionSortBy compareKeyLe (ne.columns.map Prod.fst)
    columns := ne.columns
    methods := METHODS_of ne.columns
    name := ne.className
    namespacePath := ns
    table := ne.table
    outDir := outDir
    doctrineXmlOutDir := xmlOut }

/-- The filesystem as a finite map from paths to file contents. -/
abbrev FileSystem := List (String × String)

/-- Existence check on the modelled filesystem. -/
def fsExists (fs : FileSystem) (p : String) : Bool := (fs.lookup p).isSome

/-- Overwriting write on the modelled filesystem. -/
def fsWrite (fs : FileSystem) (p content : String) : FileSystem :=
  (p, content) :: fs.filter (fun e => !(e.1 == p))

/-- Path.join modelled as slash concatenation. -/
def pathJoin (a b : String) : String := a ++ "/" ++ b

/-- Folding Path.join over the namespace segments, as the emitters do to
derive the output directory. -/
def pathJoinAll (a : String) (segs : List String) : String := segs.foldl pathJoin a

/-- Path.isAbsolute modelled as starting with a slash. -/
def isAbsolutePath (p : String) : Bool :=
  match p.data with
  | '/' :: _ => true
  | _ => false

/-- Array.prototype.join with a string separator. -/
def joinStrings (sep : String) : List String → String
  | [] => ""
  | [x] => x
  | x :: xs => x ++ sep ++ joinStrings sep xs

/-- The dbTable resolution shared by the emitters: the trimmed table field
when it is nonempty, the class name otherwise. -/
def resolveTableName (ctx : GenerateClassContext) : String :=
  let t := jsTrim (ctx.table.getD "")
  if t == "" then ctx.name else t

/-- The xmlOutDir resolution of generateClassForDoctrine: the configured
Doctrine XML directory when it is a nonblank string, made relative to the
context output directory when it is not absolute; the context output
directory otherwise. -/
def resolveXmlOutDir (ctx : GenerateClassContext) : String :=
  match ctx.doctrineXmlOutDir with
  | none => ctx.outDir
  | some d =>
    if jsTrim d == "" then ctx.outDir
    else if isAbsolutePath d then d
    else pathJoin ctx.outDir d

/-- CLASS_FILE_PATH of generateClassForDoctrine. -/
def doctrineClassPath (ctx : GenerateClassContext) : String :=
  pathJoin (pathJoinAll ctx.outDir ctx.namespacePath) (ctx.name ++ ".php")

/-- TRAIT_FILE_PATH of generateClassForDoctrine. -/
def doctrineTraitPath (ctx : GenerateClassContext) : String :=
  pathJoin (pathJoin (pathJoinAll ctx.outDir ctx.namespacePath) "Extensions") (ctx.name ++ ".php")

/-- XML_FILE_PATH of generateClassForDoctrine. -/
def doctrineXmlPath (ctx : GenerateClassContext) : String :=
  pathJoin (resolveXmlOutDir ctx) (joinStrings "." (ctx.namespacePath ++ [ctx.name]) ++ ".dcm.xml")

/-- One column annotation line of the Doctrine class body. -/
def doctrineColumnMarkup (ctx : GenerateClassContext) (C : String) :
    Except CompileError String :=
  (TO_DOCTRINE_TYPE (columnOf ctx C).type (IS_ID ctx C)).map (fun t =>
    "/**" ++ (if IS_ID ctx C then " @Id" else "") ++ " @Column(type=\"" ++ t ++ "\")" ++
      (if IS_AUTO ctx C then " @GeneratedValue" else "") ++ " **/ protected $" ++ C ++ ";")

/-- The column annotation loop of generateClassForDoctrine, in column-name
order; the first unsupported type aborts it. -/
def doctrineMarkupLines (ctx : GenerateClassContext) :
    List String → Except CompileError (List String)
  | [] => .ok []
  | C :: rest => do
    let a ← doctrineColumnMarkup ctx C
    let r ← doctrineMarkupLines ctx rest
    .ok (a :: r)

/-- Content of the generated Doctrine class file. The fixed literal template
text of the source is abbreviated here; the context-dependent pieces are kept:
namespace wrapper presence, table name, the per-column annotations in column
order and the generated accessor method names, in that order. A type-mapping
failure occurs while this content is built, before any file write, exactly as
in the source. -/
def doctrineClassFileContent (ctx : GenerateClassContext) : Except CompileError String := do
  let markup ← doctrineMarkupLines ctx ctx.columnNames
  let acc := doctrineAccessors ctx ctx.columnNames
  .ok ("<?php AUTO GENERATED FILE "
    ++ (if ctx.namespacePath.isEmpty then ""
        else "namespace " ++ joinStrings "\\" ctx.namespacePath ++ "; ")
    ++ "@Entity @Table(name=\"" ++ resolveTableName ctx ++ "\") class " ++ ctx.name
    ++ " use Extensions\\" ++ ctx.name ++ "; __construct onConstructor "
    ++ String.join markup ++ " "
    ++ String.join ((acc.1 ++ acc.2).map (fun p => "public function " ++ p.2 ++ " "))
    ++ "get_columns get_getters get_setters set_columns offsetExists offsetGet offsetSet offsetUnset")

/-- Content of the Doctrine trait file, written only on first generation: the
Extensions namespace, the trait header and the five hook method stubs. The
fixed literal template text is abbreviated as for the class file. -/
def doctrineTraitFileContent (ctx : GenerateClassContext) : String :=
  "<?php namespace " ++ joinStrings "\\" (ctx.namespacePath ++ ["Extensions"]) ++ "; trait "
    ++ ctx.name ++ " onConstructor onBeforeGet onBeforeSet onSet onSetComplete"

/-- One column element of the Doctrine XML mapping file: an id element for id
columns, with a generator element when the column is auto, and a field
element otherwise. -/
def doctrineXmlColumnLine (ctx : GenerateClassContext) (C : String) :
    Except CompileError String :=
  (TO_DOCTRINE_TYPE (columnOf ctx C).type (IS_ID ctx C)).map (fun t =>
    if IS_ID ctx C then
      if IS_AUTO ctx C then
        "<id name=\"" ++ C ++ "\" type=\"" ++ t ++ "\"><generator strategy=\"AUTO\" /></id>"
      else "<id name=\"" ++ C ++ "\" type=\"" ++ t ++ "\" />"
    else "<field name=\"" ++ C ++ "\" type=\"" ++ t ++ "\" />")

/-- The XML column loop of generateClassForDoctrine over an ordered name
list. -/
def doctrineXmlLines (ctx : GenerateClassContext) :
    List String → Except CompileError (List String)
  | [] => .ok []
  | C :: rest => do
    let a ← doctrineXmlColumnLine ctx C
    let r ← doctrineXmlLines ctx rest
    .ok (a :: r)

/-- Content of the Doctrine XML mapping file, with the columns in the
COLUMNS_FOR_XML order. -/
def doctrineXmlFileContent (ctx : GenerateClassContext) : Except CompileError String := do
  let lines ← doctrineXmlLines ctx (COLUMNS_FOR_XML ctx)
  .ok ("<doctrine-mapping><entity name=\"" ++ joinStrings "\\" ctx.namespacePath ++ "\\"
    ++ ctx.name ++ "\" table=\"" ++ resolveTableName ctx ++ "\">"
    ++ String.join lines ++ "</entity></doctrine-mapping>")

/-- generateClassForDoctrine reduced to its observable filesystem effect: the
class file is written unconditionally, the trait file only when no file
exists at its path yet, and the XML mapping file unconditionally, in source
order; a type-mapping failure surfaces before the write it precedes. -/
def generateClassForDoctrine (ctx : GenerateClassContext) (fs : FileSystem) :
    Except CompileError FileSystem :=
  match doctrineClassFileContent ctx with
  | .error e => .error e
  | .ok classFile =>
    let fs1 := fsWrite fs (doctrineClassPath ctx) classFile
    let fs2 :=
      if fsExists fs1 (doctrineTraitPath ctx) then fs1
      else fsWrite fs1 (doctrineTraitPath ctx) (doctrineTraitFileContent ctx)
    match doctrineXmlFileContent ctx with
    | .error e => .error e
    | .ok xmlFile => .ok (fsWrite fs2 (doctrineXmlPath ctx) xmlFile)

/-- CLASS_FILE_PATH of generateClassForEntityFramework. -/
def efClassPath (ctx : GenerateClassContext) : String :=
  pathJoin (pathJoinAll ctx.outDir ctx.namespacePath) (ctx.name ++ ".cs")

/-- EXTENSIONS_FILE_PATH of generateClassForEntityFramework. -/
def efExtensionsPath (ctx : GenerateClassContext) : String :=
  pathJoin (pathJoinAll ctx.outDir ctx.namespacePath) (ctx.name ++ ".Extensions.cs")

/-- One backing-field declaration of the Entity Framework class body. -/
def efFieldDecl (ctx : GenerateClassContext) (C : String) : Except CompileError String :=
  (TO_EF_TYPE (columnOf ctx C).type (IS_ID ctx C) (CAN_BE_NULL ctx C)).map (fun t =>
    "protected " ++ t ++ " _" ++ C ++ ";")

/-- The backing-field loop of generateClassForEntityFramework. -/
def efFieldDecls (ctx : GenerateClassContext) :
    List String → Except CompileError (List String)
  | [] => .ok []
  | C :: rest => do
    let a ← efFieldDecl ctx C
    let r ← efFieldDecls ctx rest
    .ok (a :: r)

/-- Content of the generated Entity Framework class file, abbreviated the
same way as the Doctrine class file content. -/
def efClassFileContent (ctx : GenerateClassContext) : Except CompileError String := do
  let fields ← efFieldDecls ctx ctx.columnNames
  let acc := efAccessors ctx ctx.columnNames
  .ok ("using System.Linq; "
    ++ (if ctx.namespacePath.isEmpty then ""
        else "namespace " ++ joinStrings "." ctx.namespacePath ++ " ")
    ++ "Table Name=\"" ++ resolveTableName ctx ++ "\" public partial class " ++ ctx.name ++ " "
    ++ String.join fields ++ " "
    ++ String.join (acc.1.map (fun p => "property " ++ p.2 ++ " get "))
    ++ String.join (acc.2.map (fun p => "property " ++ p.2 ++ " set "))
    ++ "Get_Columns Get_Getters Get_Setters Set_Columns CopyTo this")

/-- Content of the Entity Framework extensions file, written only on first
generation: the partial class with the constructor and the four hook method
stubs, abbreviated like the other contents. -/
def efExtensionsFileContent (ctx : GenerateClassContext) : String :=
  (if ctx.namespacePath.isEmpty then ""
    else "namespace " ++ joinStrings "." ctx.namespacePath ++ " ")
    ++ "partial class " ++ ctx.name
    ++ " _OnBeforeGet _OnBeforeSet _OnSet _OnSetComplete"

/-- generateClassForEntityFramework reduced to its observable filesystem
effect: the class file is written unconditionally, the extensions file only
when no file exists at its path yet. -/
def generateClassForEntityFramework (ctx : GenerateClassContext) (fs : FileSystem) :
    Except CompileError FileSystem :=
  match efClassFileContent ctx with
  | .error e => .error e
  | .ok classFile =>
    let fs1 := fsWrite fs (efClassPath ctx) classFile
    .ok (if fsExists fs1 (efExtensionsPath ctx) then fs1
         else fsWrite fs1 (efExtensionsPath ctx) (efExtensionsFileContent ctx))

/-- One backing-field declaration of the Entity Framework Core class body,
mapped through the CLR type mapper of the compiler module. -/
def efCoreFieldDecl (ctx : GenerateClassContext) (C : String) : Except CompileError String :=
  (toClrType ((columnOf ctx C).type.getD "") (CAN_BE_NULL ctx C) (IS_ID ctx C)).map (fun t =>
    "protected " ++ t ++ " _" ++ C ++ ";")

/-- The backing-field loop of the Entity Framework Core emitter. -/
def efCoreFieldDecls (ctx : GenerateClassContext) :
    List String → Except CompileError (List String)
  | [] => .ok []
  | C :: rest => do
    let a ← efCoreFieldDecl ctx C
    let r ← efCoreFieldDecls ctx rest
    .ok (a :: r)

/-- Modelled from the spec: the Entity Framework Core class file content. The
source file of the Entity Framework Core emitter is not among the provided
sources, only its registration in the target switch of compileEntities; per
the specification it renders the same two-file class shape as the Entity
Framework emitter while mapping column types through toClrType. -/
def efCoreClassFileContent (ctx : GenerateClassContext) : Except CompileError String := do
  let fields ← efCoreFieldDecls ctx ctx.columnNames
  let acc := efAccessors ctx ctx.columnNames
  .ok ("using System.Linq; "
    ++ (if ctx.namespacePath.isEmpty then ""
        else "namespace " ++ joinStrings "." ctx.namespacePath ++ " ")
    ++ "Table Name=\"" ++ resolveTableName ctx ++ "\" public partial class " ++ ctx.name ++ " "
    ++ String.join fields ++ " "
    ++ String.join (acc.1.map (fun p => "property " ++ p.2 ++ " get "))
    ++ String.join (acc.2.map (fun p => "property " ++ p.2 ++ " set ")))

/-- Modelled from the spec: the Entity Framework Core emitter (its source
file is not among the provided sources): primary class file written
unconditionally, extensions file only when absent. -/
def generateClassForEntityFrameworkCore (ctx : GenerateClassContext) (fs : FileSystem) :
    Except CompileError FileSystem :=
  match efCoreClassFileContent ctx with
  | .error e => .error e
  | .ok classFile =>
    let fs1 := fsWrite fs (efClassPath ctx) classFile
    .ok (if fsExists fs1 (efExtensionsPath ctx) then fs1
         else fsWrite fs1 (efExtensionsPath ctx) (efExtensionsFileContent ctx))

/-- The target switch of compileEntities, on the numeric values of the
EntityFramework enum: one for Doctrine, two for Entity Framework, three for
Entity Framework Core; every other value leaves the generator unassigned. -/
def dispatchGenerator (target : Nat) :
    Option (GenerateClassContext → FileSystem → Except CompileError FileSystem) :=
  if target = 1 then some generateClassForDoctrine
  else if target = 2 then some generateClassForEntityFramework
  else if target = 3 then some generateClassForEntityFrameworkCore
  else none

/-- The try block of one iteration of the entity loop in compileEntities:
validate, build the context, resolve the generator (an unresolved generator
throws the unsupported-target error), run the generator; any thrown error is
the captured err value handed to the per-entity completion callback. -/
def processEntity (target : Nat) (ns : List String) (outDir : String) (xmlOut : Option String)
    (fs : FileSystem) (E : String) (ec : Option EntityClass) :
    FileSystem × Option CompileError :=
  match normalizeEntity E ec with
  | .error e => (fs, some e)
  | .ok none => (fs, none)
  | .ok (some ne) =>
    match dispatchGenerator target with
    | none => (fs, some (.unsupportedTarget target))
    | some gen =>
      match gen (buildContext ns outDir xmlOut ne) fs with
      | .error e => (fs, some e)
      | .ok fs2 => (fs2, none)

/-- One per-entity record of the callback protocol of compileEntities: the
before callback receives the raw entity key, the completion callback the
captured error or nothing. -/
structure EntityOutcome where
  name : String
  error : Option CompileError
deriving DecidableEq

/-- The entity loop of EntityCompiler.compileEntities: every entity of the
description map is processed once, in enumeration order, each one yielding
exactly one completion record; the filesystem threads through the loop. -/
def compileEntities (target : Nat) (ns : List String) (outDir : String)
    (xmlOut : Option String) (fs : FileSystem) :
    List (String × Option EntityClass) → FileSystem × List EntityOutcome
  | [] => (fs, [])
  | (E, ec) :: rest =>
    let r := processEntity target ns outDir xmlOut fs E ec
    let next := compileEntities target ns outDir xmlOut r.1 rest
    (next.1, ⟨E, r.2⟩ :: next.2)

/-- The error component of an emitter result, used to compare outcomes across
filesystem states. -/
def exceptErr {α : Type} : Except CompileError α → Option CompileError
  | .error e => some e
  | .ok _ => none

/-- Removes trailing whitespace only; a proof-side decomposition of trimList. -/
def trimRightList (l : List Char) : List Char :=
  (l.reverse.dropWhile isJsSpace).reverse

/-- A small concrete entity used to instantiate the general theorems: an auto
id column and a plain string column. -/
def exampleNormalizedEntity : NormalizedEntity :=
  ⟨"User",
   [("id", ⟨some true, some true, none, some "int32"⟩),
    ("name", ⟨none, none, none, some "string"⟩)],
   some "users"⟩

/-- Concrete context built from the example entity. -/
def exampleCtx : GenerateClassContext :=
  buildContext ["App"] "out" none exampleNormalizedEntity

/-- Concrete starting filesystem that already holds hand-edited secondary
files at the paths the example context writes to. -/
def exampleFs : FileSystem :=
  [(doctrineTraitPath exampleCtx, "hand edited trait"),
   (efExtensionsPath exampleCtx, "hand edited extensions")]

/-- The class file content produced for the example context by the Doctrine
emitter. -/
def exampleDoctrineContent : String :=
  match doctrineClassFileContent exampleCtx with
  | .ok s => s
  | .error _ => ""

/-- The filesystem produced by the Doctrine emitter on the example input. -/
def exampleDoctrineFsOut : FileSystem :=
  match generateClassForDoctrine exampleCtx exampleFs with
  | .ok f => f
  | .error _ => []

/-- The class file content produced for the example context by the Entity
Framework emitter. -/
def exampleEfContent : String :=
  match efClassFileContent exampleCtx with
  | .ok s => s
  | .error _ => ""

/-- The filesystem produced by the Entity Framework emitter on the example
input. -/
def exampleEfFsOut : FileSystem :=
  match generateClassForEntityFramework exampleCtx exampleFs with
  | .ok f => f
  | .error _ => []

theorem lexLe_total (x y : List Char) : lexLe x y = true ∨ lexLe y x = true := by
  induction x generalizing y with
  | nil => exact Or.inl rfl
  | cons a as ih =>
    cases y with
    | nil => exact Or.inr rfl
    | cons b bs =>
      by_cases h1 : a.toNat < b.toNat
      · exact Or.inl (by simp [lexLe, h1])
      · by_cases h2 : b.toNat < a.toNat
        · exact Or.inr (by simp [lexLe, h2])
        · rcases ih bs with h | h
          · exact Or.inl (by simp [lexLe, h1, h2, h])
          · exact Or.inr (by simp [lexLe, h1, h2, h])

theorem lexLe_trans {x y z : List Char} (h1 : lexLe x y = true) (h2 : lexLe y z = true) :
    lexLe x z = true := by
  induction x generalizing y z with
  | nil => rfl
  | cons a as ih =>
    cases y with
    | nil => simp [lexLe] at h1
    | cons b bs =>
      cases z with
      | nil => simp [lexLe] at h2
      | cons c cs =>
        simp only [lexLe] at h1 h2 ⊢
        by_cases hab : a.toNat < b.toNat
        · by_cases hbc : b.toNat < c.toNat
          · simp [Nat.lt_trans hab hbc]
          · by_cases hcb : c.toNat < b.toNat
            · simp [hbc, hcb] at h2
            · have hbce : b.toNat = c.toNat :=
                Nat.le_antisymm (Nat.not_lt.mp hcb) (Nat.not_lt.mp hbc)
              simp [hbce ▸ hab]
        · by_cases hba : b.toNat < a.toNat
          · simp [hab, hba] at h1
          · have habe : a.toNat = b.toNat :=
              Nat.le_antisymm (Nat.not_lt.mp hba) (Nat.not_lt.mp hab)
            simp only [if_neg hab, if_neg hba] at h1
            by_cases hbc : b.toNat < c.toNat
            · simp [habe ▸ hbc]
            · by_cases hcb : c.toNat < b.toNat
              · simp [hbc, hcb] at h2
              · have hbce : b.toNat = c.toNat :=
                  Nat.le_antisymm (Nat.not_lt.mp hcb) (Nat.not_lt.mp hbc)
                simp only [if_neg hbc, if_neg hcb] at h2
                have hac1 : ¬a.toNat < c.toNat := by omega
                have hac2 : ¬c.toNat < a.toNat := by omega
                simp only [if_neg hac1, if_neg hac2]
                exact ih h1 h2

theorem perm_orderedInsert (le : α → α → Bool) (a : α) (l : List α) :
    List.Perm (orderedInsert le a l) (a :: l) := by
  induction l with
  | nil => simp [orderedInsert]
  | cons b l ih =>
    simp only [orderedInsert]
    by_cases h : le a b
    · simp [h]
    · simp only [if_neg h]
      exact (ih.cons b).trans (List.Perm.swap a b l)

theorem perm_insertionSortBy (le : α → α → Bool) (l : List α) :
    List.Perm (insertionSortBy le l) l := by
  induction l with
  | nil => simp [insertionSortBy]
  | cons a l ih =>
    exact (perm_orderedInsert le a (insertionSortBy le l)).trans (ih.cons a)

theorem mem_orderedInsert {le : α → α → Bool} {a b : α} {l : List α}
    (h : b ∈ orderedInsert le a l) : b = a ∨ b ∈ l := by
  have := (perm_orderedInsert le a l).mem_iff.mp h
  simpa using this

theorem pairwise_orderedInsert {le : α → α → Bool}
    (htrans : ∀ x y z, le x y = true → le y z = true → le x z = true)
    (htotal : ∀ x y, le x y = true ∨ le y x = true)
    (a : α) {l : List α} (h : List.Pairwise (fun x y => le x y = true) l) :
    List.Pairwise (fun x y => le x y = true) (orderedInsert le a l) := by
  induction l with
  | nil => simp [orderedInsert]
  | cons b l ih =>
    rcases List.pairwise_cons.mp h with ⟨hb, hl⟩
    simp only [orderedInsert]
    by_cases hab : le a b
    · simp only [if_pos hab]
      refine List.pairwise_cons.mpr ⟨?_, h⟩
      intro c hc
      rcases List.mem_cons.mp hc with rfl | hc
      · exact hab
      · exact htrans a b c hab (hb c hc)
    · simp only [if_neg hab]
      refine List.pairwise_cons.mpr ⟨?_, ih hl⟩
      intro c hc
      rcases mem_orderedInsert hc with rfl | hc
      · rcases htotal c b with h1 | h1
        · exact absurd h1 hab
        · exact h1
      · exact hb c hc

theorem pairwise_insertionSortBy {le : α → α → Bool}
    (htrans : ∀ x y z, le x y = true → le y z = true → le x z = true)
    (htotal : ∀ x y, le x y = true ∨ le y x = true) (l : List α) :
    List.Pairwise (fun x y => le x y = true) (insertionSortBy le l) := by
  induction l with
  | nil => simp [insertionSortBy]
  | cons a l ih => exact pairwise_orderedInsert htrans htotal a ih

theorem compareKeyLe_total (x y : String) :
    compareKeyLe x y = true ∨ compareKeyLe y x = true :=
  lexLe_total _ _

theorem compareKeyLe_trans {x y z : String} (h1 : compareKeyLe x y = true)
    (h2 : compareKeyLe y z = true) : compareKeyLe x z = true :=
  lexLe_trans h1 h2

theorem xmlOrderLe_total (ctx : GenerateClassContext) (x y : String) :
    xmlOrderLe ctx x y = true ∨ xmlOrderLe ctx y x = true := by
  unfold xmlOrderLe
  by_cases h1 : xmlIdRank ctx x < xmlIdRank ctx y
  · exact Or.inl (by simp [h1])
  · by_cases h2 : xmlIdRank ctx y < xmlIdRank ctx x
    · exact Or.inr (by simp [h2])
    · have he : xmlIdRank ctx x = xmlIdRank ctx y := by omega
      rcases compareKeyLe_total x y with h | h
      · exact Or.inl (by simp [h1, he, h])
      · exact Or.inr (by simp [h2, he.symm, h])

theorem xmlOrderLe_trans (ctx : GenerateClassContext) {x y z : String}
    (h1 : xmlOrderLe ctx x y = true) (h2 : xmlOrderLe ctx y z = true) :
    xmlOrderLe ctx x z = true := by
  unfold xmlOrderLe at h1 h2 ⊢
  by_cases hxy : xmlIdRank ctx x < xmlIdRank ctx y
  · by_cases hyz : xmlIdRank ctx y < xmlIdRank ctx z
    · have hxz : xmlIdRank ctx x < xmlIdRank ctx z := by omega
      simp [hxz]
    · by_cases heyz : xmlIdRank ctx y = xmlIdRank ctx z
      · have hxz : xmlIdRank ctx x < xmlIdRank ctx z := by omega
        simp [hxz]
      · simp [hyz, heyz] at h2
  · by_cases hexy : xmlIdRank ctx x = xmlIdRank ctx y
    · simp only [if_neg hxy, if_pos hexy] at h1
      by_cases hyz : xmlIdRank ctx y < xmlIdRank ctx z
      · have hxz : xmlIdRank ctx x < xmlIdRank ctx z := by omega
        simp [hxz]
      · by_cases heyz : xmlIdRank ctx y = xmlIdRank ctx z
        · have h3 : ¬xmlIdRank ctx x < xmlIdRank ctx z := by omega
          have h4 : xmlIdRank ctx x = xmlIdRank ctx z := by omega
          simp only [if_neg hyz, if_pos heyz] at h2
          simp [h3, h4, compareKeyLe_trans h1 h2]
        · simp [hyz, heyz] at h2
    · simp [hxy, hexy] at h1

theorem fsWrite_lookup_self (fs : FileSystem) (p c : String) :
    (fsWrite fs p c).lookup p = some c := by
  simp [fsWrite, List.lookup]

theorem lookup_filter_ne {fs : FileSystem} {p q : String} (h : q ≠ p) :
    (fs.filter (fun e => !(e.1 == p))).lookup q = fs.lookup q := by
  induction fs with
  | nil => rfl
  | cons a fs ih =>
    obtain ⟨k, v⟩ := a
    by_cases hkp : k = p
    · subst hkp
      have hqk : (q == k) = false := beq_eq_false_iff_ne.mpr h
      simp [List.filter_cons, List.lookup, hqk, ih]
    · have hkp2 : (!(k == p)) = true := by simp [hkp]
      cases hqk : (q == k) with
      | true => simp [List.filter_cons, hkp2, List.lookup, hqk]
      | false => simp [List.filter_cons, hkp2, List.lookup, hqk, ih]

theorem fsWrite_lookup_ne (fs : FileSystem) (p c q : String) (h : q ≠ p) :
    (fsWrite fs p c).lookup q = fs.lookup q := by
  have hqp : (q == p) = false := beq_eq_false_iff_ne.mpr h
  simp [fsWrite, List.lookup, hqp, lookup_filter_ne h]

example : TO_DOCTRINE_TYPE (some "unobtainium") true = .error (.unsupportedDoctrineType "unobtainium") := rfl
example : TO_DOCTRINE_TYPE (some "Int32 ") false = .ok "integer" := rfl
example : TO_EF_TYPE (some "int") true true = .ok "int?" := rfl
example : TO_EF_TYPE none true false = .ok "int" := rfl
example : toClrType "smallint" true false = .ok "short?" := rfl
example : toClrType "" true true = .ok "int?" := rfl

example : methodNameSuffix "user_email" = "User_email" := rfl
example : methodNameSuffix "first-name" = "First-name" := rfl
example : methodNameSuffix "user\temail" = "UserEmail" := rfl
example : methodNameSuffix "  id  " = "Id" := rfl
example : parseForClass "a|b" = some "a|b" := rfl
example : parseForClass "user_email" = some "user_email" := rfl
example : parseForClass "9lives" = none := rfl
example : parseForClass "a b" = none := rfl

/-- Claim C1. The claim states that the method-name suffix is obtained by
splitting the column key on underscore, hyphen and tab, uppercasing each
surviving trimmed word and concatenating, so that user_email gives UserEmail
and first-name gives FirstName. The code disagrees: each of the three
replaceAll statements reads the original key, so only the tab replacement
takes effect, and the computed suffixes are User_email and First-name. This
theorem records the code behaviour at the failing inputs, together with the
tab and trim cases on which code and claim agree. -/
theorem C1_method_suffix_code_behaviour :
    methodNameSuffix "user_email" = "User_email" ∧
    methodNameSuffix "first-name" = "First-name" ∧
    methodNameSuffix "user\temail" = "UserEmail" ∧
    methodNameSuffix "  id  " = "Id" :=
  ⟨rfl, rfl, rfl, rfl⟩

/-- Claim C2. The claim states that identifier validation accepts exactly the
trimmed strings matching a run of letters, digits and underscores that does
not start with a digit. The code disagrees: the character class of its regex
contains a literal pipe, so strings containing a pipe are accepted. This
theorem records the code behaviour at the failing inputs, together with two
agreeing cases. -/
theorem C2_parseForClass_accepts_pipe :
    parseForClass "a|b" = some "a|b" ∧
    parseForClass "|" = some "|" ∧
    parseForClass "9lives" = none ∧
    parseForClass "user email" = none :=
  ⟨rfl, rfl, rfl, rfl⟩

/-- Claim C5. For every type tag that normalizes to the empty string, the
first switch of each of the three type mappers selects the integer native
type of its ecosystem when the column is an id column and the string native
type otherwise, and the complete mappers return exactly that type with the
nullable marker applied by the second switch where the ecosystem has one. -/
theorem C5_empty_tag_default_type (tag : String) (h : normalizeString tag = "")
    (isId canBeNull : Bool) :
    doctrineTypeSwitch (normalizeString tag) isId = .ok (if isId then "integer" else "string") ∧
    efTypeSwitch (normalizeString tag) isId = .ok (if isId then "int" else "string") ∧
    clrTypeSwitch (normalizeString tag) isId = .ok (if isId then "int" else "string") ∧
    TO_DOCTRINE_TYPE (some tag) isId = .ok (if isId then "integer" else "string") ∧
    TO_EF_TYPE (some tag) isId canBeNull =
      .ok (if canBeNull && isId then "int?" else if isId then "int" else "string") ∧
    toClrType tag canBeNull isId =
      .ok (if canBeNull && isId then "int?" else if isId then "int" else "string") := by
  have hd : TO_DOCTRINE_TYPE (some tag) isId = doctrineTypeSwitch "" isId := by
    simp [TO_DOCTRINE_TYPE, h]
  have he : TO_EF_TYPE (some tag) isId canBeNull =
      (efTypeSwitch "" isId).map (fun t => efNullableMark t canBeNull) := by
    simp [TO_EF_TYPE, h]
  have hc : toClrType tag canBeNull isId =
      (clrTypeSwitch "" isId).map (fun t => clrNullableMark t canBeNull) := by
    simp [toClrType, h]
  rw [h, hd, he, hc]
  cases isId <;> cases canBeNull <;> exact ⟨rfl, rfl, rfl, rfl, rfl, rfl⟩

/-- Witness for claim C5 at the empty tag, an id column and no nullability. -/
theorem C5_empty_tag_default_type_witness :
    doctrineTypeSwitch (normalizeString "") true = .ok (if true then "integer" else "string") ∧
    efTypeSwitch (normalizeString "") true = .ok (if true then "int" else "string") ∧
    clrTypeSwitch (normalizeString "") true = .ok (if true then "int" else "string") ∧
    TO_DOCTRINE_TYPE (some "") true = .ok (if true then "integer" else "string") ∧
    TO_EF_TYPE (some "") true false =
      .ok (if false && true then "int?" else if true then "int" else "string") ∧
    toClrType "" false true =
      .ok (if false && true then "int?" else if true then "int" else "string") :=
  C5_empty_tag_default_type "" rfl true false

/-- Claim C9. For every type tag whose normalization is outside the
recognized set of an ecosystem, the type mapper of that ecosystem fails with
its unsupported-type error; this holds for each of the three ecosystems. -/
theorem C9_unrecognized_tag_fails (tag : String) (isId canBeNull : Bool) :
    (normalizeString tag ∉ doctrineRecognizedTypes →
      TO_DOCTRINE_TYPE (some tag) isId =
        .error (.unsupportedDoctrineType (normalizeString tag))) ∧
    (normalizeString tag ∉ efRecognizedTypes →
      TO_EF_TYPE (some tag) isId canBeNull =
        .error (.unsupportedEfType (normalizeString tag))) ∧
    (normalizeString tag ∉ clrRecognizedTypes →
      toClrType tag canBeNull isId =
        .error (.unsupportedClrType (normalizeString tag))) := by
  refine ⟨?_, ?_, ?_⟩
  · intro h
    simp only [doctrineRecognizedTypes, TYPE_BIGINT, TYPE_INT64, TYPE_DECIMAL, TYPE_FLOAT,
      TYPE_INT, TYPE_INT32, TYPE_INTEGER, TYPE_INT16, TYPE_SMALLINT, TYPE_JSON, TYPE_STR,
      TYPE_STRING, TYPE__DEFAULT, List.mem_cons, List.mem_singleton, not_or,
      List.not_mem_nil, or_false] at h
    obtain ⟨h1, h2, h3, h4, h5, h6, h7, h8, h9, h10, h11, h12, h13⟩ := h
    simp [TO_DOCTRINE_TYPE, doctrineTypeSwitch, TYPE_BIGINT, TYPE_INT64, TYPE_DECIMAL,
      TYPE_FLOAT, TYPE_INT, TYPE_INT32, TYPE_INTEGER, TYPE_INT16, TYPE_SMALLINT, TYPE_JSON,
      TYPE_STR, TYPE_STRING, TYPE__DEFAULT, h1, h2, h3, h4, h5, h6, h7, h8, h9, h10, h11,
      h12, h13]
  · intro h
    simp only [efRecognizedTypes, TYPE_STR, TYPE_STRING, TYPE_INT, TYPE_INT32, TYPE_INTEGER,
      TYPE_JSON, TYPE_BIGINT, TYPE_INT64, TYPE__DEFAULT, List.mem_cons, List.mem_singleton,
      not_or, List.not_mem_nil, or_false] at h
    obtain ⟨h1, h2, h3, h4, h5, h6, h7, h8, h9⟩ := h
    simp [TO_EF_TYPE, efTypeSwitch, Except.map, TYPE_STR, TYPE_STRING, TYPE_INT, TYPE_INT32,
      TYPE_INTEGER, TYPE_JSON, TYPE_BIGINT, TYPE_INT64, TYPE__DEFAULT, h1, h2, h3, h4, h5,
      h6, h7, h8, h9]
  · intro h
    simp only [clrRecognizedTypes, TYPE_BIGINT, TYPE_INT64, TYPE_DECIMAL, TYPE_FLOAT,
      TYPE_INT, TYPE_INT32, TYPE_INTEGER, TYPE_INT16, TYPE_SMALLINT, TYPE_JSON, TYPE_STR,
      TYPE_STRING, TYPE__DEFAULT, List.mem_cons, List.mem_singleton, not_or,
      List.not_mem_nil, or_false] at h
    obtain ⟨h1, h2, h3, h4, h5, h6, h7, h8, h9, h10, h11, h12, h13⟩ := h
    simp [toClrType, clrTypeSwitch, Except.map, TYPE_BIGINT, TYPE_INT64, TYPE_DECIMAL,
      TYPE_FLOAT, TYPE_INT, TYPE_INT32, TYPE_INTEGER, TYPE_INT16, TYPE_SMALLINT, TYPE_JSON,
      TYPE_STR, TYPE_STRING, TYPE__DEFAULT, h1, h2, h3, h4, h5, h6, h7, h8, h9, h10, h11,
      h12, h13]

/-- Witness for claim C9 at the unrecognized tag unobtainium. -/
theorem C9_unrecognized_tag_fails_witness :
    TO_DOCTRINE_TYPE (some "unobtainium") true =
      .error (.unsupportedDoctrineType (normalizeString "unobtainium")) ∧
    TO_EF_TYPE (some "unobtainium") true false =
      .error (.unsupportedEfType (normalizeString "unobtainium")) ∧
    toClrType "unobtainium" false true =
      .error (.unsupportedClrType (normalizeString "unobtainium")) :=
  ⟨(C9_unrecognized_tag_fails "unobtainium" true false).1 (by decide),
   (C9_unrecognized_tag_fails "unobtainium" true false).2.1 (by decide),
   (C9_unrecognized_tag_fails "unobtainium" true false).2.2 (by decide)⟩

theorem xmlOrderLe_elim {ctx : GenerateClassContext} {x y : String}
    (h : xmlOrderLe ctx x y = true) :
    (IS_ID ctx y = true → IS_ID ctx x = true) ∧
    (IS_ID ctx x = IS_ID ctx y → compareKeyLe x y = true) := by
  unfold xmlOrderLe at h
  constructor
  · intro hy
    by_cases hx : IS_ID ctx x
    · exact hx
    · exfalso
      have hrx : xmlIdRank ctx x = 1 := by simp [xmlIdRank, hx]
      have hry : xmlIdRank ctx y = 0 := by simp [xmlIdRank, hy]
      rw [hrx, hry] at h
      simp at h
  · intro he
    have hr : xmlIdRank ctx x = xmlIdRank ctx y := by simp [xmlIdRank, he]
    rw [hr] at h
    simpa using h

/-- Claim C7. For every context, the column list of the Doctrine XML mapping
file is a permutation of the context column names in which every id column
precedes every non-id column, and any two columns of equal id status appear
in case-insensitive lexical order of their names. -/
theorem C7_xml_column_order (ctx : GenerateClassContext) :
    List.Perm (COLUMNS_FOR_XML ctx) ctx.columnNames ∧
    List.Pairwise (fun x y =>
      (IS_ID ctx y = true → IS_ID ctx x = true) ∧
      (IS_ID ctx x = IS_ID ctx y → compareKeyLe x y = true)) (COLUMNS_FOR_XML ctx) := by
  constructor
  · exact perm_insertionSortBy _ _
  · have hp := @pairwise_insertionSortBy String (xmlOrderLe ctx)
      (fun x y z h1 h2 => xmlOrderLe_trans ctx h1 h2)
      (fun x y => xmlOrderLe_total ctx x y) ctx.columnNames
    exact List.Pairwise.imp (fun h => xmlOrderLe_elim h) hp

theorem doctrineGetters_lookup (ctx : GenerateClassContext) (l : List String) (C : String)
    (h : C ∈ l) :
    (doctrineAccessors ctx l).1.lookup C = some ("get" ++ methodOf ctx C) := by
  induction l with
  | nil => exact absurd h (List.not_mem_nil C)
  | cons D rest ih =>
    simp only [doctrineAccessors]
    by_cases hc : C = D
    · subst hc
      simp [List.lookup]
    · have hm : C ∈ rest := by
        rcases List.mem_cons.mp h with h1 | h1
        · exact absurd h1 hc
        · exact h1
      have hck : (C == D) = false := beq_eq_false_iff_ne.mpr hc
      simp [List.lookup, hck, ih hm]

theorem doctrineSetters_lookup_none (ctx : GenerateClassContext) {C : String}
    (hauto : IS_AUTO ctx C = true) (l : List String) :
    (doctrineAccessors ctx l).2.lookup C = none := by
  induction l with
  | nil => rfl
  | cons D rest ih =>
    simp only [doctrineAccessors]
    by_cases hd : IS_AUTO ctx D
    · simp [hd, ih]
    · have hcd : (C == D) = false := by
        apply beq_eq_false_iff_ne.mpr
        intro hh
        rw [hh] at hauto
        exact hd hauto
      simp [hd, List.lookup, hcd, ih]

theorem doctrineSetters_lookup_some (ctx : GenerateClassContext) {C : String}
    (hauto : IS_AUTO ctx C = false) (l : List String) (h : C ∈ l) :
    (doctrineAccessors ctx l).2.lookup C = some ("set" ++ methodOf ctx C) := by
  induction l with
  | nil => exact absurd h (List.not_mem_nil C)
  | cons D rest ih =>
    simp only [doctrineAccessors]
    by_cases hc : C = D
    · subst hc
      simp [hauto, List.lookup]
    · have hm : C ∈ rest := by
        rcases List.mem_cons.mp h with h1 | h1
        · exact absurd h1 hc
        · exact h1
      have hck : (C == D) = false := beq_eq_false_iff_ne.mpr hc
      by_cases hd : IS_AUTO ctx D
      · simp [hd, ih hm]
      · simp [hd, List.lookup, hck, ih hm]

theorem efGetters_lookup (ctx : GenerateClassContext) (l : List String) (C : String)
    (h : C ∈ l) :
    (efAccessors ctx l).1.lookup C = some (methodOf ctx C) := by
  induction l with
  | nil => exact absurd h (List.not_mem_nil C)
  | cons D rest ih =>
    simp only [efAccessors]
    by_cases hc : C = D
    · subst hc
      simp [List.lookup]
    · have hm : C ∈ rest := by
        rcases List.mem_cons.mp h with h1 | h1
        · exact absurd h1 hc
        · exact h1
      have hck : (C == D) = false := beq_eq_false_iff_ne.mpr hc
      simp [List.lookup, hck, ih hm]

theorem efSetters_lookup_none (ctx : GenerateClassContext) {C : String}
    (hauto : IS_AUTO ctx C = true) (l : List String) :
    (efAccessors ctx l).2.lookup C = none := by
  induction l with
  | nil => rfl
  | cons D rest ih =>
    simp only [efAccessors]
    by_cases hd : IS_AUTO ctx D
    · simp [hd, ih]
    · have hcd : (C == D) = false := by
        apply beq_eq_false_iff_ne.mpr
        intro hh
        rw [hh] at hauto
        exact hd hauto
      simp [hd, List.lookup, hcd, ih]

theorem efSetters_lookup_some (ctx : GenerateClassContext) {C : String}
    (hauto : IS_AUTO ctx C = false) (l : List String) (h : C ∈ l) :
    (efAccessors ctx l).2.lookup C = some (methodOf ctx C) := by
  induction l with
  | nil => exact absurd h (List.not_mem_nil C)
  | cons D rest ih =>
    simp only [efAccessors]
    by_cases hc : C = D
    · subst hc
      simp [hauto, List.lookup]
    · have hm : C ∈ rest := by
        rcases List.mem_cons.mp h with h1 | h1
        · exact absurd h1 hc
        · exact h1
      have hck : (C == D) = false := beq_eq_false_iff_ne.mpr hc
      by_cases hd : IS_AUTO ctx D
      · simp [hd, ih hm]
      · simp [hd, List.lookup, hck, ih hm]

/-- Claim C8. In both emitted classes, every column of the context gets a
getter entry, and it gets a setter entry exactly when it is not marked
auto-generated; the Doctrine accessor names prepend get and set to the
method suffix, the Entity Framework property uses the suffix itself. -/
theorem C8_getter_always_setter_iff_not_auto (ctx : GenerateClassContext) (C : String)
    (h : C ∈ ctx.columnNames) :
    (doctrineAccessors ctx ctx.columnNames).1.lookup C = some ("get" ++ methodOf ctx C) ∧
    (doctrineAccessors ctx ctx.columnNames).2.lookup C =
      (if IS_AUTO ctx C then none else some ("set" ++ methodOf ctx C)) ∧
    (efAccessors ctx ctx.columnNames).1.lookup C = some (methodOf ctx C) ∧
    (efAccessors ctx ctx.columnNames).2.lookup C =
      (if IS_AUTO ctx C then none else some (methodOf ctx C)) := by
  refine ⟨doctrineGetters_lookup ctx ctx.columnNames C h, ?_,
    efGetters_lookup ctx ctx.columnNames C h, ?_⟩
  · by_cases ha : IS_AUTO ctx C
    · simp [ha, doctrineSetters_lookup_none ctx ha ctx.columnNames]
    · have ha2 : IS_AUTO ctx C = false := by simpa using ha
      simp [ha2, doctrineSetters_lookup_some ctx ha2 ctx.columnNames h]
  · by_cases ha : IS_AUTO ctx C
    · simp [ha, efSetters_lookup_none ctx ha ctx.columnNames]
    · have ha2 : IS_AUTO ctx C = false := by simpa using ha
      simp [ha2, efSetters_lookup_some ctx ha2 ctx.columnNames h]

/-- Witness for claim C8 on the example context at its plain column. -/
theorem C8_getter_always_setter_iff_not_auto_witness :
    (doctrineAccessors exampleCtx exampleCtx.columnNames).1.lookup "name" =
      some ("get" ++ methodOf exampleCtx "name") ∧
    (doctrineAccessors exampleCtx exampleCtx.columnNames).2.lookup "name" =
      (if IS_AUTO exampleCtx "name" then none
       else some ("set" ++ methodOf exampleCtx "name")) ∧
    (efAccessors exampleCtx exampleCtx.columnNames).1.lookup "name" =
      some (methodOf exampleCtx "name") ∧
    (efAccessors exampleCtx exampleCtx.columnNames).2.lookup "name" =
      (if IS_AUTO exampleCtx "name" then none else some (methodOf exampleCtx "name")) :=
  C8_getter_always_setter_iff_not_auto exampleCtx "name" (by decide)

theorem splitOnChar_ne_nil (sep : Char) (cs : List Char) : splitOnChar sep cs ≠ [] := by
  induction cs with
  | nil => simp [splitOnChar]
  | cons c cs ih =>
    simp only [splitOnChar]
    rcases hs : splitOnChar sep cs with _ | ⟨w, ws⟩
    · simp
    · by_cases hc : c == sep <;> simp [hc]

theorem splitOnChar_cons_ne {sep c : Char} {cs w : List Char} {ws : List (List Char)}
    (h : c ≠ sep) (hs : splitOnChar sep cs = w :: ws) :
    splitOnChar sep (c :: cs) = (c :: w) :: ws := by
  simp only [splitOnChar]
  rw [hs]
  simp [beq_eq_false_iff_ne.mpr h]

theorem joinWith_cons_cons (sep : List Char) (a : Char) (w : List Char)
    (ws : List (List Char)) :
    joinWith sep ((a :: w) :: ws) = a :: joinWith sep (w :: ws) := by
  cases ws with
  | nil => rfl
  | cons v vs => simp [joinWith]

theorem replaceAll_cons {a sep : Char} (h : a ≠ sep) (cs : List Char) (rep : String) :
    (replaceAll ⟨a :: cs⟩ sep rep).data = a :: (replaceAll ⟨cs⟩ sep rep).data := by
  obtain ⟨w, ws, hs⟩ : ∃ w ws, splitOnChar sep cs = w :: ws := by
    rcases hq : splitOnChar sep cs with _ | ⟨w, ws⟩
    · exact absurd hq (splitOnChar_ne_nil sep cs)
    · exact ⟨w, ws, rfl⟩
  have h2 : splitOnChar sep (a :: cs) = (a :: w) :: ws := splitOnChar_cons_ne h hs
  simp [replaceAll, h2, hs, joinWith_cons_cons]

theorem ne_of_isAlpha_not {a c : Char} (ha : a.isAlpha = true) (hc : c.isAlpha = false) :
    a ≠ c := by
  intro h
  rw [h, hc] at ha
  exact Bool.false_ne_true ha

theorem isJsSpace_false_of_isAlpha {a : Char} (ha : a.isAlpha = true) :
    isJsSpace a = false := by
  have h1 : a ≠ ' ' := ne_of_isAlpha_not ha (by decide)
  have h2 : a ≠ '\t' := ne_of_isAlpha_not ha (by decide)
  have h3 : a ≠ '\n' := ne_of_isAlpha_not ha (by decide)
  have h4 : a ≠ '\r' := ne_of_isAlpha_not ha (by decide)
  have h5 : a ≠ '\x0b' := ne_of_isAlpha_not ha (by decide)
  have h6 : a ≠ '\x0c' := ne_of_isAlpha_not ha (by decide)
  simp [isJsSpace, beq_eq_false_iff_ne.mpr h1, beq_eq_false_iff_ne.mpr h2,
    beq_eq_false_iff_ne.mpr h3, beq_eq_false_iff_ne.mpr h4, beq_eq_false_iff_ne.mpr h5,
    beq_eq_false_iff_ne.mpr h6]

theorem trimList_cons {a : Char} {l : List Char} (hsp : isJsSpace a = false) :
    trimList (a :: l) = a :: trimRightList l := by
  unfold trimList trimRightList
  rw [List.dropWhile_cons]
  simp only [hsp, Bool.false_eq_true, if_false, List.reverse_cons, List.dropWhile_append]
  by_cases he : (l.reverse.dropWhile isJsSpace).isEmpty
  · have he2 : l.reverse.dropWhile isJsSpace = [] := List.isEmpty_iff.mp he
    simp [he, he2, List.dropWhile_cons, hsp]
  · simp [he, List.reverse_append]

theorem methodNameSuffix_head (rest : List Char) :
    ∃ tail : List Char, ∀ a : Char, a.isAlpha = true →
      methodNameSuffix ⟨a :: rest⟩ = ⟨a.toUpper :: tail⟩ := by
  obtain ⟨w, ws, hs⟩ :
      ∃ w ws, splitOnChar ' ' (replaceAll ⟨rest⟩ '\t' "    ").data = w :: ws := by
    rcases hq : splitOnChar ' ' (replaceAll ⟨rest⟩ '\t' "    ").data with _ | ⟨w, ws⟩
    · exact absurd hq (splitOnChar_ne_nil ' ' _)
    · exact ⟨w, ws, rfl⟩
  refine ⟨trimList (trimRightList w) ++
    ((((ws.map (fun v => jsTrim ⟨v⟩)).filter (fun v => v != "")).map upperFirstWord).foldr
      (fun x acc => x ++ acc) "").data, ?_⟩
  intro a ha
  have hsp : isJsSpace a = false := isJsSpace_false_of_isAlpha ha
  have hat : a ≠ '\t' := ne_of_isAlpha_not ha (by decide)
  have hasp : a ≠ ' ' := ne_of_isAlpha_not ha (by decide)
  have h1 : (replaceAll ⟨a :: rest⟩ '\t' "    ").data
      = a :: (replaceAll ⟨rest⟩ '\t' "    ").data := replaceAll_cons hat rest "    "
  have h2 : splitOnChar ' ' (replaceAll ⟨a :: rest⟩ '\t' "    ").data = (a :: w) :: ws := by
    rw [h1]
    exact splitOnChar_cons_ne hasp hs
  have h3 : jsTrim ⟨a :: w⟩ = ⟨a :: trimRightList w⟩ := by
    simp [jsTrim, trimList_cons hsp]
  have h4 : ((⟨a :: trimRightList w⟩ : String) != "") = true := by
    apply bne_iff_ne.mpr
    intro hh
    have hd := congrArg String.data hh
    simp at hd
  have h5 : upperFirstWord ⟨a :: trimRightList w⟩ = ⟨a.toUpper :: trimList (trimRightList w)⟩ :=
    rfl
  simp only [methodNameSuffix, h2, List.map_cons, h3, List.filter_cons, h4, if_true, h5,
    List.foldr_cons]
  apply String.ext
  simp [String.data_append]

/-- Claim C10. Two distinct column keys that differ only in the case of their
first letter pass the case-sensitive duplicate check of the normalization
loop as two separate columns, yet their derived method-name suffixes are
equal, so the emitted accessors of the two columns carry the same method
name. -/
theorem C10_case_variant_keys_collide (a b : Char) (rest : List Char)
    (ha : a.isAlpha = true) (hb : b.isAlpha = true) (hne : a ≠ b)
    (hup : a.toUpper = b.toUpper)
    (hv1 : parseForClass ⟨a :: rest⟩ = some ⟨a :: rest⟩)
    (hv2 : parseForClass ⟨b :: rest⟩ = some ⟨b :: rest⟩)
    (e1 e2 : EntityColumnDescriptionEntry) :
    addColumns [] [(⟨a :: rest⟩, e1), (⟨b :: rest⟩, e2)] =
      .ok [(⟨a :: rest⟩, toColumnEntry e1), (⟨b :: rest⟩, toColumnEntry e2)] ∧
    methodNameSuffix ⟨a :: rest⟩ = methodNameSuffix ⟨b :: rest⟩ := by
  constructor
  · have hneq : ((⟨b :: rest⟩ : String) == (⟨a :: rest⟩ : String)) = false := by
      apply beq_eq_false_iff_ne.mpr
      intro hh
      have hd := congrArg String.data hh
      simp at hd
      exact hne hd.symm
    simp [addColumns, hv1, hv2, List.lookup, hneq]
  · obtain ⟨tail, ht⟩ := methodNameSuffix_head rest
    rw [ht a ha, ht b hb, hup]

/-- Witness for claim C10 at the keys id and Id. -/
theorem C10_case_variant_keys_collide_witness :
    addColumns [] [(⟨'i' :: ['d']⟩, .shorthand "int"), (⟨'I' :: ['d']⟩, .shorthand "int")] =
      .ok [(⟨'i' :: ['d']⟩, toColumnEntry (.shorthand "int")),
           (⟨'I' :: ['d']⟩, toColumnEntry (.shorthand "int"))] ∧
    methodNameSuffix ⟨'i' :: ['d']⟩ = methodNameSuffix ⟨'I' :: ['d']⟩ :=
  C10_case_variant_keys_collide 'i' 'I' ['d'] (by decide) (by decide) (by decide) (by decide)
    (by decide) (by decide) (.shorthand "int") (.shorthand "int")

theorem generateClassForDoctrine_err (ctx : GenerateClassContext) (fs fs2 : FileSystem) :
    exceptErr (generateClassForDoctrine ctx fs) =
      exceptErr (generateClassForDoctrine ctx fs2) := by
  unfold generateClassForDoctrine
  rcases h1 : doctrineClassFileContent ctx with e | cf
  · rfl
  · rcases h2 : doctrineXmlFileContent ctx with e | xf <;> simp [exceptErr]

theorem generateClassForEntityFramework_err (ctx : GenerateClassContext) (fs fs2 : FileSystem) :
    exceptErr (generateClassForEntityFramework ctx fs) =
      exceptErr (generateClassForEntityFramework ctx fs2) := by
  unfold generateClassForEntityFramework
  rcases h1 : efClassFileContent ctx with e | cf <;> simp [exceptErr]

theorem generateClassForEntityFrameworkCore_err (ctx : GenerateClassContext)
    (fs fs2 : FileSystem) :
    exceptErr (generateClassForEntityFrameworkCore ctx fs) =
      exceptErr (generateClassForEntityFrameworkCore ctx fs2) := by
  unfold generateClassForEntityFrameworkCore
  rcases h1 : efCoreClassFileContent ctx with e | cf <;> simp [exceptErr]

theorem processEntity_err_indep (t : Nat) (ns : List String) (od : String)
    (xo : Option String) (fs fs2 : FileSystem) (E : String) (ec : Option EntityClass) :
    (processEntity t ns od xo fs E ec).2 = (processEntity t ns od xo fs2 E ec).2 := by
  unfold processEntity
  rcases hn : normalizeEntity E ec with e | o
  · rfl
  · rcases o with _ | ne
    · rfl
    · by_cases h1 : t = 1
      · subst h1
        simp only [dispatchGenerator, if_pos rfl]
        have hh := generateClassForDoctrine_err (buildContext ns od xo ne) fs fs2
        rcases hx : generateClassForDoctrine (buildContext ns od xo ne) fs with e | f
        · rcases hy : generateClassForDoctrine (buildContext ns od xo ne) fs2 with e2 | f2
          · rw [hx, hy] at hh
            simp [exceptErr] at hh
            simp [hx, hy, hh]
          · rw [hx, hy] at hh
            simp [exceptErr] at hh
        · rcases hy : generateClassForDoctrine (buildContext ns od xo ne) fs2 with e2 | f2
          · rw [hx, hy] at hh
            simp [exceptErr] at hh
          · simp [hx, hy]
      · by_cases h2 : t = 2
        · subst h2
          simp only [dispatchGenerator, if_pos rfl]
          norm_num
          have hh := generateClassForEntityFramework_err (buildContext ns od xo ne) fs fs2
          rcases hx : generateClassForEntityFramework (buildContext ns od xo ne) fs with e | f
          · rcases hy : generateClassForEntityFramework (buildContext ns od xo ne) fs2 with e2 | f2
            · rw [hx, hy] at hh
              simp [exceptErr] at hh
              simp [hx, hy, hh]
            · rw [hx, hy] at hh
              simp [exceptErr] at hh
          · rcases hy : generateClassForEntityFramework (buildContext ns od xo ne) fs2 with e2 | f2
            · rw [hx, hy] at hh
              simp [exceptErr] at hh
            · simp [hx, hy]
        · by_cases h3 : t = 3
          · subst h3
            simp only [dispatchGenerator, if_pos rfl]
            norm_num
            have hh := generateClassForEntityFrameworkCore_err (buildContext ns od xo ne) fs fs2
            rcases hx : generateClassForEntityFrameworkCore (buildContext ns od xo ne) fs with e | f
            · rcases hy : generateClassForEntityFrameworkCore (buildContext ns od xo ne) fs2 with e2 | f2
              · rw [hx, hy] at hh
                simp [exceptErr] at hh
                simp [hx, hy, hh]
              · rw [hx, hy] at hh
                simp [exceptErr] at hh
            · rcases hy : generateClassForEntityFrameworkCore (buildContext ns od xo ne) fs2 with e2 | f2
              · rw [hx, hy] at hh
                simp [exceptErr] at hh
              · simp [hx, hy]
          · simp [dispatchGenerator, h1, h2, h3]

theorem compileEntities_outcomes (t : Nat) (ns : List String) (od : String)
    (xo : Option String) (fs : FileSystem) (es : List (String × Option EntityClass)) :
    (compileEntities t ns od xo fs es).2 =
      es.map (fun p => ⟨p.1, (processEntity t ns od xo fs p.1 p.2).2⟩) := by
  induction es generalizing fs with
  | nil => rfl
  | cons p rest ih =>
    obtain ⟨E, ec⟩ := p
    simp only [compileEntities, List.map_cons]
    refine congrArg₂ List.cons rfl ?_
    rw [ih]
    exact List.map_congr_left (fun q _ =>
      congrArg (fun z => EntityOutcome.mk q.1 z)
        (processEntity_err_indep t ns od xo _ fs q.1 q.2))

theorem compileEntities_append (t : Nat) (ns : List String) (od : String)
    (xo : Option String) (fs : FileSystem) (es es2 : List (String × Option EntityClass)) :
    compileEntities t ns od xo fs (es ++ es2) =
      ((compileEntities t ns od xo (compileEntities t ns od xo fs es).1 es2).1,
       (compileEntities t ns od xo fs es).2 ++
         (compileEntities t ns od xo (compileEntities t ns od xo fs es).1 es2).2) := by
  induction es generalizing fs with
  | nil => simp [compileEntities]
  | cons p rest ih =>
    obtain ⟨E, ec⟩ := p
    simp only [List.cons_append, compileEntities, List.append_eq]
    rw [ih]

/-- Claim C3. Per-entity failures are isolated: the error reported for an
entity does not depend on the filesystem state left by earlier entities, the
loop produces exactly one completion record per entity of the description
map in enumeration order, each carrying the error of that entity alone, and
processing a concatenation processes the first part and then the second, so
a failing entity never stops the remaining ones. -/
theorem C3_per_entity_failure_isolated (t : Nat) (ns : List String) (od : String)
    (xo : Option String) (fs fs2 : FileSystem) (E : String) (ec : Option EntityClass)
    (es es2 : List (String × Option EntityClass)) :
    (processEntity t ns od xo fs E ec).2 = (processEntity t ns od xo fs2 E ec).2 ∧
    (compileEntities t ns od xo fs es).2 =
      es.map (fun p => ⟨p.1, (processEntity t ns od xo fs p.1 p.2).2⟩) ∧
    (compileEntities t ns od xo fs (es ++ es2)).2 =
      (compileEntities t ns od xo fs es).2 ++
        (compileEntities t ns od xo (compileEntities t ns od xo fs es).1 es2).2 :=
  ⟨processEntity_err_indep t ns od xo fs fs2 E ec,
   compileEntities_outcomes t ns od xo fs es,
   congrArg Prod.snd (compileEntities_append t ns od xo fs es es2)⟩

/-- Counterexample to claim C4: with target 99, which has no registered
emitter, the compile loop does not fail as a whole; it continues past the
first entity, reports the unsupported-target error separately through the
completion record of each of the two entities and returns normally. -/
theorem C4_counterexample :
    compileEntities 99 [] "out" none []
        [("A", some ⟨none, none⟩), ("B", some ⟨none, none⟩)] =
      ([], [⟨"A", some (.unsupportedTarget 99)⟩, ⟨"B", some (.unsupportedTarget 99)⟩]) := rfl

theorem processEntity_unsupported_target {t : Nat} (h1 : t ≠ 1) (h2 : t ≠ 2) (h3 : t ≠ 3)
    (ns : List String) (od : String) (xo : Option String) (fs : FileSystem)
    {E : String} {ec : Option EntityClass} {ne : NormalizedEntity}
    (hn : normalizeEntity E ec = .ok (some ne)) :
    processEntity t ns od xo fs E ec = (fs, some (.unsupportedTarget t)) := by
  unfold processEntity
  rw [hn]
  simp [dispatchGenerator, h1, h2, h3]

/-- Claim C4 as amended. An unsupported target is not fatal to the compile
call: the filesystem is left untouched, every entity still gets exactly one
completion record in order, and every entity that passes normalization gets
the unsupported-target error in its own record. -/
theorem C4_amended_unsupported_target_per_entity (t : Nat)
    (h1 : t ≠ 1) (h2 : t ≠ 2) (h3 : t ≠ 3) (ns : List String) (od : String)
    (xo : Option String) (fs : FileSystem) (es : List (String × Option EntityClass)) :
    (compileEntities t ns od xo fs es).1 = fs ∧
    ((compileEntities t ns od xo fs es).2).map EntityOutcome.name = es.map Prod.fst ∧
    (∀ E ec ne, normalizeEntity E ec = .ok (some ne) →
      (processEntity t ns od xo fs E ec).2 = some (.unsupportedTarget t)) := by
  refine ⟨?_, ?_, ?_⟩
  · induction es generalizing fs with
    | nil => rfl
    | cons p rest ih =>
      obtain ⟨E, ec⟩ := p
      simp only [compileEntities]
      have hp : (processEntity t ns od xo fs E ec).1 = fs := by
        unfold processEntity
        rcases hn : normalizeEntity E ec with e | o
        · rfl
        · rcases o with _ | ne
          · rfl
          · simp [dispatchGenerator, h1, h2, h3]
      rw [hp]
      exact ih fs
  · rw [compileEntities_outcomes]
    simp [List.map_map, Function.comp]
  · intro E ec ne hn
    rw [processEntity_unsupported_target h1 h2 h3 ns od xo fs hn]

/-- Witness for the amended claim C4 at target 99 on a one-entity schema. -/
theorem C4_amended_unsupported_target_per_entity_witness :
    (compileEntities 99 [] "out" none [] [("A", some ⟨none, none⟩)]).1 = [] ∧
    (processEntity 99 [] "out" none [] "A" (some ⟨none, none⟩)).2 =
      some (.unsupportedTarget 99) :=
  ⟨(C4_amended_unsupported_target_per_entity 99 (by decide) (by decide) (by decide)
      [] "out" none [] [("A", some ⟨none, none⟩)]).1,
   (C4_amended_unsupported_target_per_entity 99 (by decide) (by decide) (by decide)
      [] "out" none [] [("A", some ⟨none, none⟩)]).2.2 "A" (some ⟨none, none⟩)
      ⟨"A", [], none⟩ rfl⟩

theorem append_getLast (s t : String) (c : Char) (h : t.data.getLast? = some c) :
    (s ++ t).data.getLast? = some c := by
  rw [String.data_append, List.getLast?_append, h]
  rfl

theorem ne_of_getLast {s t : String} {c1 c2 : Char} (hs : s.data.getLast? = some c1)
    (ht : t.data.getLast? = some c2) (hc : c1 ≠ c2) : s ≠ t := by
  intro h
  rw [h, ht] at hs
  exact hc (Option.some.inj hs).symm

theorem doctrineClassPath_getLast (ctx : GenerateClassContext) :
    (doctrineClassPath ctx).data.getLast? = some 'p' := by
  unfold doctrineClassPath pathJoin
  exact append_getLast _ _ _ (append_getLast _ _ _ rfl)

theorem doctrineTraitPath_getLast (ctx : GenerateClassContext) :
    (doctrineTraitPath ctx).data.getLast? = some 'p' := by
  unfold doctrineTraitPath pathJoin
  exact append_getLast _ _ _ (append_getLast _ _ _ rfl)

theorem doctrineXmlPath_getLast (ctx : GenerateClassContext) :
    (doctrineXmlPath ctx).data.getLast? = some 'l' := by
  unfold doctrineXmlPath pathJoin
  exact append_getLast _ _ _ (append_getLast _ _ _ rfl)

theorem doctrineTraitPath_ne_classPath (ctx : GenerateClassContext) :
    doctrineTraitPath ctx ≠ doctrineClassPath ctx := by
  intro h
  have hl := congrArg String.length h
  simp only [doctrineTraitPath, doctrineClassPath, pathJoin, String.length_append] at hl
  have e1 : "/".length = 1 := rfl
  have e2 : "Extensions".length = 10 := rfl
  omega

theorem doctrineClassPath_ne_xmlPath (ctx : GenerateClassContext) :
    doctrineClassPath ctx ≠ doctrineXmlPath ctx :=
  ne_of_getLast (doctrineClassPath_getLast ctx) (doctrineXmlPath_getLast ctx) (by decide)

theorem doctrineTraitPath_ne_xmlPath (ctx : GenerateClassContext) :
    doctrineTraitPath ctx ≠ doctrineXmlPath ctx :=
  ne_of_getLast (doctrineTraitPath_getLast ctx) (doctrineXmlPath_getLast ctx) (by decide)

theorem efExtensionsPath_ne_classPath (ctx : GenerateClassContext) :
    efExtensionsPath ctx ≠ efClassPath ctx := by
  intro h
  have hl := congrArg String.length h
  simp only [efExtensionsPath, efClassPath, pathJoin, String.length_append] at hl
  have e1 : ".Extensions.cs".length = 14 := rfl
  have e2 : ".cs".length = 3 := rfl
  omega

/-- Claim C6. For both provided emitters, a successful emission writes the
primary class file unconditionally, overwriting whatever was at its path,
while the path of the secondary extension file keeps its previous content
whenever a file already exists there, and receives the generated stub
content exactly when nothing exists there yet. -/
theorem C6_primary_overwritten_secondary_preserved (ctx : GenerateClassContext)
    (fs : FileSystem) :
    (∀ cf fsOut, doctrineClassFileContent ctx = .ok cf →
      generateClassForDoctrine ctx fs = .ok fsOut →
      fsOut.lookup (doctrineClassPath ctx) = some cf ∧
      (∀ c, fs.lookup (doctrineTraitPath ctx) = some c →
        fsOut.lookup (doctrineTraitPath ctx) = some c) ∧
      (fs.lookup (doctrineTraitPath ctx) = none →
        fsOut.lookup (doctrineTraitPath ctx) = some (doctrineTraitFileContent ctx))) ∧
    (∀ cf fsOut, efClassFileContent ctx = .ok cf →
      generateClassForEntityFramework ctx fs = .ok fsOut →
      fsOut.lookup (efClassPath ctx) = some cf ∧
      (∀ c, fs.lookup (efExtensionsPath ctx) = some c →
        fsOut.lookup (efExtensionsPath ctx) = some c) ∧
      (fs.lookup (efExtensionsPath ctx) = none →
        fsOut.lookup (efExtensionsPath ctx) = some (efExtensionsFileContent ctx))) := by
  constructor
  · intro cf fsOut hcf hgen
    rcases hxml : doctrineXmlFileContent ctx with e | xf
    · have hbad : generateClassForDoctrine ctx fs = .error e := by
        unfold generateClassForDoctrine
        rw [hcf, hxml]
      rw [hbad] at hgen
      simp at hgen
    · have hval : generateClassForDoctrine ctx fs =
          .ok (fsWrite
            (if fsExists (fsWrite fs (doctrineClassPath ctx) cf) (doctrineTraitPath ctx) then
              fsWrite fs (doctrineClassPath ctx) cf
            else
              fsWrite (fsWrite fs (doctrineClassPath ctx) cf) (doctrineTraitPath ctx)
                (doctrineTraitFileContent ctx))
            (doctrineXmlPath ctx) xf) := by
        unfold generateClassForDoctrine
        rw [hcf, hxml]
      rw [hval] at hgen
      injection hgen with hout
      subst hout
      refine ⟨?_, ?_, ?_⟩
      · rw [fsWrite_lookup_ne _ _ _ _ (doctrineClassPath_ne_xmlPath ctx)]
        by_cases hex : fsExists (fsWrite fs (doctrineClassPath ctx) cf) (doctrineTraitPath ctx)
        · simp only [if_pos hex]
          exact fsWrite_lookup_self fs _ cf
        · simp only [if_neg hex]
          rw [fsWrite_lookup_ne _ _ _ _ ((doctrineTraitPath_ne_classPath ctx).symm)]
          exact fsWrite_lookup_self fs _ cf
      · intro c hc
        have h1 : (fsWrite fs (doctrineClassPath ctx) cf).lookup (doctrineTraitPath ctx) =
            some c := by
          rw [fsWrite_lookup_ne _ _ _ _ (doctrineTraitPath_ne_classPath ctx)]
          exact hc
        have hex : fsExists (fsWrite fs (doctrineClassPath ctx) cf) (doctrineTraitPath ctx) =
            true := by
          simp [fsExists, h1]
        rw [fsWrite_lookup_ne _ _ _ _ (doctrineTraitPath_ne_xmlPath ctx)]
        simp only [hex, if_true]
        exact h1
      · intro hnone
        have h1 : (fsWrite fs (doctrineClassPath ctx) cf).lookup (doctrineTraitPath ctx) =
            none := by
          rw [fsWrite_lookup_ne _ _ _ _ (doctrineTraitPath_ne_classPath ctx)]
          exact hnone
        have hex : fsExists (fsWrite fs (doctrineClassPath ctx) cf) (doctrineTraitPath ctx) =
            false := by
          simp [fsExists, h1]
        rw [fsWrite_lookup_ne _ _ _ _ (doctrineTraitPath_ne_xmlPath ctx)]
        simp only [hex, Bool.false_eq_true, if_false]
        exact fsWrite_lookup_self _ _ _
  · intro cf fsOut hcf hgen
    have hval : generateClassForEntityFramework ctx fs =
        .ok (if fsExists (fsWrite fs (efClassPath ctx) cf) (efExtensionsPath ctx) then
              fsWrite fs (efClassPath ctx) cf
            else
              fsWrite (fsWrite fs (efClassPath ctx) cf) (efExtensionsPath ctx)
                (efExtensionsFileContent ctx)) := by
      unfold generateClassForEntityFramework
      rw [hcf]
    rw [hval] at hgen
    injection hgen with hout
    subst hout
    refine ⟨?_, ?_, ?_⟩
    · by_cases hex : fsExists (fsWrite fs (efClassPath ctx) cf) (efExtensionsPath ctx)
      · simp only [if_pos hex]
        exact fsWrite_lookup_self fs _ cf
      · simp only [if_neg hex]
        rw [fsWrite_lookup_ne _ _ _ _ ((efExtensionsPath_ne_classPath ctx).symm)]
        exact fsWrite_lookup_self fs _ cf
    · intro c hc
      have h1 : (fsWrite fs (efClassPath ctx) cf).lookup (efExtensionsPath ctx) = some c := by
        rw [fsWrite_lookup_ne _ _ _ _ (efExtensionsPath_ne_classPath ctx)]
        exact hc
      have hex : fsExists (fsWrite fs (efClassPath ctx) cf) (efExtensionsPath ctx) = true := by
        simp [fsExists, h1]
      simp only [hex, if_true]
      exact h1
    · intro hnone
      have h1 : (fsWrite fs (efClassPath ctx) cf).lookup (efExtensionsPath ctx) = none := by
        rw [fsWrite_lookup_ne _ _ _ _ (efExtensionsPath_ne_classPath ctx)]
        exact hnone
      have hex : fsExists (fsWrite fs (efClassPath ctx) cf) (efExtensionsPath ctx) = false := by
        simp [fsExists, h1]
      simp only [hex, Bool.false_eq_true, if_false]
      exact fsWrite_lookup_self _ _ _

/-- Witness for claim C6 on the example context with hand-edited secondary
files already on disk. -/
theorem C6_primary_overwritten_secondary_preserved_witness :
    exampleDoctrineFsOut.lookup (doctrineClassPath exampleCtx) = some exampleDoctrineContent ∧
    exampleDoctrineFsOut.lookup (doctrineTraitPath exampleCtx) = some "hand edited trait" ∧
    exampleEfFsOut.lookup (efClassPath exampleCtx) = some exampleEfContent ∧
    exampleEfFsOut.lookup (efExtensionsPath exampleCtx) = some "hand edited extensions" :=
  ⟨((C6_primary_overwritten_secondary_preserved exampleCtx exampleFs).1
      exampleDoctrineContent exampleDoctrineFsOut rfl rfl).1,
   ((C6_primary_overwritten_secondary_preserved exampleCtx exampleFs).1
      exampleDoctrineContent exampleDoctrineFsOut rfl rfl).2.1 "hand edited trait" rfl,
   ((C6_primary_overwritten_secondary_preserved exampleCtx exampleFs).2
      exampleEfContent exampleEfFsOut rfl rfl).1,
   ((C6_primary_overwritten_secondary_preserved exampleCtx exampleFs).2
      exampleEfContent exampleEfFsOut rfl rfl).2.1 "hand edited extensions" rfl⟩

end EntityBaker
